import Mathlib

/-
  Verification development for the Product Catalog Service
  (Flask CRUD service: service/routes.py).

  The embedding models the route handlers of routes.py faithfully over an
  explicit database state.  The ORM model layer (service/models.py) is not in
  the repository snapshot; the definitions that stand for it are marked
  "Modelled from the spec" and follow spec.md sections 3 and 4.2.
-/

namespace ProductService

/-- The closed category enumeration of the data model (spec section 3,
routes.py docstring line 101). -/
inductive Category where
  | TOOLS
  | FOOD
  | CLOTHS
  | HOUSEWARES
  | AUTOMOTIVE
  deriving DecidableEq, Repr

/-- Python `Category[category_name]` (routes.py line 120): exact, case-sensitive
lookup of an enum member by name; `none` models the `KeyError` branch. -/
def Category.fromName (s : String) : Option Category :=
  if s = "TOOLS" then some .TOOLS
  else if s = "FOOD" then some .FOOD
  else if s = "CLOTHS" then some .CLOTHS
  else if s = "HOUSEWARES" then some .HOUSEWARES
  else if s = "AUTOMOTIVE" then some .AUTOMOTIVE
  else none

/-- The enumeration member's name, as used by serialization (spec section 4.2:
category is serialized as its member name). -/
def Category.memberName : Category → String
  | .TOOLS => "TOOLS"
  | .FOOD => "FOOD"
  | .CLOTHS => "CLOTHS"
  | .HOUSEWARES => "HOUSEWARES"
  | .AUTOMOTIVE => "AUTOMOTIVE"

/-- Modelled from the spec: the persisted Product entity of section 3
(service/models.py is not in the snapshot).  `price` is an exact decimal kept
in its exact string form, since the wire format serializes it as a string and
no claim performs arithmetic on it. -/
structure Product where
  id : Nat
  name : String
  description : String
  price : String
  available : Bool
  category : Category
  deriving DecidableEq, Repr

/-- The wire JSON representation of a product (spec section 4.2): keys id,
name, description, price, available, category; price as a string and category
as its member name. -/
structure ProductJson where
  id : Nat
  name : String
  description : String
  price : String
  available : Bool
  category : String
  deriving DecidableEq, Repr

/-- Modelled from the spec: `Product.serialize` of service/models.py
(spec section 4.2). -/
def serialize (p : Product) : ProductJson :=
  ⟨p.id, p.name, p.description, p.price, p.available, p.category.memberName⟩

/-- A create/update request body.  `name` is optional so that a payload
missing the required `name` key can be expressed. -/
structure Payload where
  name : Option String
  description : String
  price : String
  available : Bool
  category : String
  deriving DecidableEq, Repr

/-- Modelled from the spec: the field-extraction part of
`Product.deserialize` in service/models.py.  Per spec section 4.2 it rejects a
payload missing the required `name` field or naming an unrecognized category;
`none` stands for the DataValidationError that the error handlers turn into a
400 response.  It never reads or sets `id` (spec section 8 round-trip note). -/
def deserializeFields (data : Payload) : Option (String × String × String × Bool × Category) :=
  match data.name with
  | none => none
  | some n =>
    match Category.fromName data.category with
    | none => none
    | some c => some (n, data.description, data.price, data.available, c)

/-- Modelled from the spec: `product.deserialize(data)` applied to an existing
record (routes.py line 176): overwrites the mutable fields with the payload's
values and preserves `id`. -/
def deserializeInto (p : Product) (data : Payload) : Option Product :=
  (deserializeFields data).map fun f =>
    ⟨p.id, f.1, f.2.1, f.2.2.1, f.2.2.2.1, f.2.2.2.2⟩

/-- The database state: the stored rows plus the storage's next surrogate key.
Spec section 3: id is assigned by storage on creation and never reused. -/
structure DB where
  rows : List Product
  nextId : Nat
  deriving DecidableEq, Repr

/-- The empty store with the id sequence at its start. -/
def DB.init : DB := ⟨[], 1⟩

/-- Modelled from the spec: `Product.find(product_id)` of service/models.py —
primary-key lookup (routes.py lines 150, 168, 190). -/
def DB.find (db : DB) (pid : Nat) : Option Product :=
  db.rows.find? fun p => p.id == pid

/-- `check_content_type("application/json")` (routes.py lines 49-65): aborts
415 when the Content-Type header is absent or differs from the expected exact
string; `true` means the check passes. -/
def contentTypeOk (header : Option String) : Bool :=
  header == some "application/json"

/-- The canonical read URL produced by
`url_for("get_products", product_id=..)` (routes.py lines 89, 154); the host
prefix added by `_external=True` is deployment configuration and omitted. -/
def location_url (pid : Nat) : String :=
  "/products/" ++ toString pid

/-- Result of POST /products: status, created representation, Location header,
and the store after the request. -/
structure CreateResult where
  status : Nat
  body : Option ProductJson
  location : Option String
  db : DB
  deriving DecidableEq, Repr

/-- `create_products` (routes.py lines 71-90): content-type check, then
deserialize into a new Product, persist it under a fresh id, and answer 201
with the serialized record and its Location header.  Error responses carry a
JSON error message body, not a product representation, hence `body = none`
there. -/
def create_products (header : Option String) (body : Payload) (db : DB) : CreateResult :=
  if contentTypeOk header then
    match deserializeFields body with
    | none => ⟨400, none, none, db⟩
    | some f =>
      let p : Product := ⟨db.nextId, f.1, f.2.1, f.2.2.1, f.2.2.2.1, f.2.2.2.2⟩
      ⟨201, some (serialize p), some (location_url p.id), ⟨db.rows ++ [p], db.nextId + 1⟩⟩
  else ⟨415, none, none, db⟩

/-- Python string truthiness of an optional query parameter: present and
non-empty (`if name:` at routes.py line 114, `if category_name:` at 118). -/
def isTruthy : Option String → Bool
  | some s => s ≠ ""
  | none => false

/-- Python `str.strip()` on the character list of a string: drop whitespace
from both ends. -/
def pyStrip (cs : List Char) : List Char :=
  ((cs.dropWhile Char.isWhitespace).reverse.dropWhile Char.isWhitespace).reverse

/-- Python `str.lower()` on one character (ASCII letters; the query values the
handler compares against are all ASCII). -/
def pyLowerChar (c : Char) : Char :=
  if 'A' ≤ c ∧ c ≤ 'Z' then Char.ofNat (c.toNat + 32) else c

/-- Python `s.strip().lower()` as a character list. -/
def pyStripLower (s : String) : List Char :=
  (pyStrip s.data).map pyLowerChar

/-- The available-parameter parser of routes.py lines 127-133:
`val = available_param.strip().lower()`, then membership in
("true","1","yes") or ("false","0","no"); `none` models the 400 abort. -/
def parseAvailable (s : String) : Option Bool :=
  let val := pyStripLower s
  if val = "true".data ∨ val = "1".data ∨ val = "yes".data then some true
  else if val = "false".data ∨ val = "0".data ∨ val = "no".data then some false
  else none

/-- Result of GET /products: status and, on success, the serialized rows. -/
structure ListResult where
  status : Nat
  body : Option (List ProductJson)
  deriving DecidableEq, Repr

/-- The availability stage of `list_products` (routes.py lines 126-138):
applied to the query built by the name and category stages. -/
def finishAvailable (available : Option String) (q : List Product) : ListResult :=
  match available with
  | none => ⟨200, some (q.map serialize)⟩
  | some a =>
    match parseAvailable a with
    | some b => ⟨200, some ((q.filter fun p => p.available == b).map serialize)⟩
    | none => ⟨400, none⟩

/-- `list_products` (routes.py lines 96-138): starts from all rows, narrows by
exact name when the name parameter is truthy, then by category when that
parameter is truthy (400 on an unknown member name), then hands the query to
the availability stage. -/
def list_products (name category available : Option String) (db : DB) : ListResult :=
  let q1 := if isTruthy name then db.rows.filter (fun p => p.name == name.getD "") else db.rows
  if isTruthy category then
    match Category.fromName (category.getD "") with
    | none => ⟨400, none⟩
    | some c => finishAvailable available (q1.filter fun p => p.category == c)
  else finishAvailable available q1

/-- Result of GET /products/id: status, representation, Location header. -/
structure ReadResult where
  status : Nat
  body : Option ProductJson
  location : Option String
  deriving DecidableEq, Repr

/-- `get_products` (routes.py lines 144-155). -/
def get_products (pid : Nat) (db : DB) : ReadResult :=
  match db.find pid with
  | none => ⟨404, none, none⟩
  | some p => ⟨200, some (serialize p), some (location_url p.id)⟩

/-- Result of PUT /products/id. -/
structure UpdateResult where
  status : Nat
  body : Option ProductJson
  db : DB
  deriving DecidableEq, Repr

/-- `update_products` (routes.py lines 161-178): content-type check first,
then existence, then deserialize onto the found record and persist it. -/
def update_products (pid : Nat) (header : Option String) (body : Payload) (db : DB) :
    UpdateResult :=
  if contentTypeOk header then
    match db.find pid with
    | none => ⟨404, none, db⟩
    | some p =>
      match deserializeInto p body with
      | none => ⟨400, none, db⟩
      | some p2 => ⟨200, some (serialize p2),
          ⟨db.rows.map fun q => if q.id == pid then p2 else q, db.nextId⟩⟩
  else ⟨415, none, db⟩

/-- Result of DELETE /products/id.  Per RFC 9110 the HTTP layer sends no body
with a 204 status (the handler's `jsonify({})` payload is suppressed by the
framework), so the success body is `none`; the 404 branch carries the abort
message. -/
structure DeleteResult where
  status : Nat
  body : Option String
  db : DB
  deriving DecidableEq, Repr

/-- `delete_products` (routes.py lines 184-195). -/
def delete_products (pid : Nat) (db : DB) : DeleteResult :=
  match db.find pid with
  | none => ⟨404, some ("Product with id [" ++ toString pid ++ "] was not found."), db⟩
  | some _ => ⟨204, none, ⟨db.rows.filter (fun p => p.id != pid), db.nextId⟩⟩

/-- One API request, for reasoning about sequences of operations. -/
inductive Request where
  | create (header : Option String) (body : Payload)
  | list (name category available : Option String)
  | read (pid : Nat)
  | update (pid : Nat) (header : Option String) (body : Payload)
  | delete (pid : Nat)
  deriving DecidableEq, Repr

/-- The store after handling one request (GET requests have no effect on it;
spec section 5: one implicit transaction per request, no state across
requests). -/
def Request.apply : Request → DB → DB
  | .create h b, db => (create_products h b db).db
  | .list _ _ _, db => db
  | .read _, db => db
  | .update pid h b, db => (update_products pid h b db).db
  | .delete pid, db => (delete_products pid db).db

/-- The store after handling a sequence of requests from a given state. -/
def applyAll (reqs : List Request) (db : DB) : DB :=
  reqs.foldl (fun d r => r.apply d) db

/-- The store reached from the empty store by a sequence of requests. -/
def runTrace (reqs : List Request) : DB :=
  applyAll reqs DB.init

/-- The storage invariant: every stored id is below the next surrogate key.
This is the embedding of "assigned by storage on creation, immutable
thereafter ... never reused" (spec section 3). -/
def DBInv (db : DB) : Prop :=
  ∀ p ∈ db.rows, p.id < db.nextId

instance (db : DB) : Decidable (DBInv db) := by
  unfold DBInv; infer_instance

/-- Spec-side predicate, following the claim wording for GET /products
filtering: the conjunction of the equality predicates supplied by the query
parameters (name equality, category equality after enum decoding, availability
equality after boolean decoding); an absent parameter constrains nothing. -/
def matchesAllFilters (name category available : Option String) (p : Product) : Bool :=
  (match name with
   | some n => p.name == n
   | none => true) &&
  ((match category with
    | some s => some p.category == Category.fromName s
    | none => true) &&
   (match available with
    | some s => some p.available == parseAvailable s
    | none => true))

/-- The JSON content-type header value required by the write endpoints. -/
def jsonHeader : Option String := some "application/json"

/-- A concrete valid creation payload, used to instantiate theorems. -/
def payloadHammer : Payload := ⟨some "Hammer", "A steel hammer", "9.99", true, "TOOLS"⟩

/-- A second concrete valid payload. -/
def payloadBread : Payload := ⟨some "Bread", "Whole grain", "3.50", false, "FOOD"⟩

/-- A concrete payload missing the required name field. -/
def payloadNoName : Payload := ⟨none, "No name here", "1.00", true, "TOOLS"⟩

/-- The record the store holds after creating `payloadHammer` first. -/
def hammerProduct : Product := ⟨1, "Hammer", "A steel hammer", "9.99", true, Category.TOOLS⟩

/-- A one-request trace creating `payloadHammer`. -/
def traceHammer : List Request := [Request.create jsonHeader payloadHammer]

/-- The store after creating `payloadHammer` in the empty store. -/
def dbSample : DB := runTrace traceHammer

theorem DB.find_eq_none_iff (db : DB) (pid : Nat) :
    db.find pid = none ↔ ∀ p ∈ db.rows, p.id ≠ pid := by
  simp [DB.find, List.find?_eq_none]

theorem DB.find_some_id {db : DB} {pid : Nat} {p : Product}
    (h : db.find pid = some p) : p.id = pid := by
  simpa using List.find?_some h

theorem DB.find_some_mem {db : DB} {pid : Nat} {p : Product}
    (h : db.find pid = some p) : p ∈ db.rows :=
  List.mem_of_find?_eq_some h

theorem deserializeInto_id {p p2 : Product} {data : Payload}
    (h : deserializeInto p data = some p2) : p2.id = p.id := by
  unfold deserializeInto at h
  cases hd : deserializeFields data <;> rw [hd] at h <;> simp at h
  rw [← h]

theorem apply_nextId_le (r : Request) (db : DB) : db.nextId ≤ (r.apply db).nextId := by
  cases r with
  | create h b =>
    simp only [Request.apply, create_products]
    split
    · split <;> simp
    · simp
  | list n c a => simp [Request.apply]
  | read pid => simp [Request.apply]
  | update pid h b =>
    simp only [Request.apply, update_products]
    split
    · split
      · simp
      · split <;> simp
    · simp
  | delete pid =>
    simp only [Request.apply, delete_products]
    split <;> simp

theorem apply_inv {db : DB} (r : Request) (hinv : DBInv db) : DBInv (r.apply db) := by
  cases r with
  | create h b =>
    simp only [Request.apply, create_products]
    split
    · split
      · exact hinv
      · intro q hq
        simp only [List.mem_append, List.mem_singleton] at hq
        rcases hq with hq | hq
        · exact Nat.lt_succ_of_lt (hinv q hq)
        · subst hq; exact Nat.lt_succ_self _
    · exact hinv
  | list n c a => exact hinv
  | read pid => exact hinv
  | update pid h b =>
    simp only [Request.apply, update_products]
    split
    · split
      · exact hinv
      · rename_i p hfind
        split
        · exact hinv
        · rename_i p2 hdes
          intro q hq
          simp only [List.mem_map] at hq
          obtain ⟨q0, hq0, hq0eq⟩ := hq
          subst hq0eq
          by_cases hid : q0.id == pid
          · simp only [hid, if_pos]
            rw [deserializeInto_id hdes]
            exact hinv p (DB.find_some_mem hfind)
          · simp only [hid]
            exact hinv q0 hq0
    · exact hinv
  | delete pid =>
    simp only [Request.apply, delete_products]
    split
    · exact hinv
    · intro q hq
      exact hinv q (List.mem_of_mem_filter hq)

theorem apply_find_none {db : DB} {pid : Nat} (r : Request)
    (hlt : pid < db.nextId) (habs : db.find pid = none) :
    (r.apply db).find pid = none := by
  rw [DB.find_eq_none_iff] at habs ⊢
  cases r with
  | create h b =>
    simp only [Request.apply, create_products]
    split
    · split
      · exact habs
      · intro q hq
        simp only [List.mem_append, List.mem_singleton] at hq
        rcases hq with hq | hq
        · exact habs q hq
        · subst hq; exact Nat.ne_of_gt hlt
    · exact habs
  | list n c a => exact habs
  | read q => exact habs
  | update pid2 h b =>
    simp only [Request.apply, update_products]
    split
    · split
      · exact habs
      · rename_i p hfind
        split
        · exact habs
        · rename_i p2 hdes
          intro q hq
          simp only [List.mem_map] at hq
          obtain ⟨q0, hq0, hq0eq⟩ := hq
          subst hq0eq
          by_cases hid : q0.id == pid2
          · simp only [hid, if_pos]
            rw [deserializeInto_id hdes]
            exact habs p (DB.find_some_mem hfind)
          · simp only [hid]
            exact habs q0 hq0
    · exact habs
  | delete pid2 =>
    simp only [Request.apply, delete_products]
    split
    · exact habs
    · intro q hq
      exact habs q (List.mem_of_mem_filter hq)

theorem applyAll_cons (r : Request) (rs : List Request) (db : DB) :
    applyAll (r :: rs) db = applyAll rs (r.apply db) := rfl

theorem applyAll_nextId_le (reqs : List Request) (db : DB) :
    db.nextId ≤ (applyAll reqs db).nextId := by
  induction reqs generalizing db with
  | nil => exact Nat.le_refl _
  | cons r rs ih =>
    rw [applyAll_cons]
    exact Nat.le_trans (apply_nextId_le r db) (ih (r.apply db))

theorem applyAll_inv {db : DB} (reqs : List Request) (h : DBInv db) :
    DBInv (applyAll reqs db) := by
  induction reqs generalizing db with
  | nil => exact h
  | cons r rs ih =>
    rw [applyAll_cons]
    exact ih (apply_inv r h)

theorem runTrace_inv (reqs : List Request) : DBInv (runTrace reqs) :=
  applyAll_inv reqs (by intro p hp; cases hp)

theorem applyAll_find_none {db : DB} {pid : Nat} (reqs : List Request)
    (hlt : pid < db.nextId) (habs : db.find pid = none) :
    (applyAll reqs db).find pid = none := by
  induction reqs generalizing db with
  | nil => exact habs
  | cons r rs ih =>
    rw [applyAll_cons]
    exact ih (Nat.lt_of_lt_of_le hlt (apply_nextId_le r db)) (apply_find_none r hlt habs)

theorem runTrace_take_nextId_le (reqs : List Request) (k : Nat) :
    (runTrace (reqs.take k)).nextId ≤ (runTrace reqs).nextId := by
  conv_rhs => rw [runTrace, applyAll, ← List.take_append_drop k reqs, List.foldl_append]
  exact applyAll_nextId_le _ _

theorem find_nextId_none {db : DB} (h : DBInv db) {pid : Nat} (hle : db.nextId ≤ pid) :
    db.find pid = none := by
  rw [DB.find_eq_none_iff]
  intro p hp
  exact Nat.ne_of_lt (Nat.lt_of_lt_of_le (h p hp) hle)

/-- C6: every POST /products request whose Content-Type header is absent or
differs from application/json is answered 415, with no product representation
and the store unchanged (no product created), regardless of the body. -/
theorem C6_create_requires_json_content_type (header : Option String) (body : Payload)
    (db : DB) (h : header ≠ some "application/json") :
    create_products header body db = ⟨415, none, none, db⟩ := by
  have hct : contentTypeOk header = false := by
    simp [contentTypeOk, h]
  simp [create_products, hct]

theorem C6_witness :
    ((some "text/plain" : Option String) ≠ some "application/json") ∧
    ((none : Option String) ≠ some "application/json") ∧
    create_products (some "text/plain") payloadHammer DB.init = ⟨415, none, none, DB.init⟩ ∧
    create_products none payloadHammer DB.init = ⟨415, none, none, DB.init⟩ :=
  ⟨by decide, by decide,
   C6_create_requires_json_content_type (some "text/plain") payloadHammer DB.init (by decide),
   C6_create_requires_json_content_type none payloadHammer DB.init (by decide)⟩

/-- C7: a POST /products request with JSON content type whose body lacks the
required name field is answered 400, with no product representation and the
store unchanged (no product created). -/
theorem C7_create_missing_name (body : Payload) (db : DB) (h : body.name = none) :
    create_products (some "application/json") body db = ⟨400, none, none, db⟩ := by
  simp [create_products, contentTypeOk, deserializeFields, h]

theorem C7_witness :
    payloadNoName.name = none ∧
    create_products (some "application/json") payloadNoName dbSample =
      ⟨400, none, none, dbSample⟩ :=
  ⟨by decide, C7_create_missing_name payloadNoName dbSample (by decide)⟩

/-- C9: in PUT /products/id the content-type check precedes the existence
check: the response is 415 exactly when the Content-Type header is absent or
not application/json (whether or not the product exists), and 404 exactly when
the content type is correct and no product with that id exists. -/
theorem C9_update_content_type_before_existence (pid : Nat) (header : Option String)
    (body : Payload) (db : DB) :
    ((update_products pid header body db).status = 415 ↔
       header ≠ some "application/json") ∧
    ((update_products pid header body db).status = 404 ↔
       (header = some "application/json" ∧ db.find pid = none)) := by
  by_cases hct : header = some "application/json"
  · subst hct
    have hok : contentTypeOk (some "application/json") = true := by decide
    cases hf : db.find pid with
    | none => simp [update_products, hok, hf]
    | some p =>
      cases hd : deserializeInto p body with
      | none => simp [update_products, hok, hf, hd]
      | some p2 => simp [update_products, hok, hf, hd]
  · have hok : contentTypeOk header = false := by simp [contentTypeOk, hct]
    simp [update_products, hok, hct]

theorem C9_witness :
    ((update_products 1 (some "text/plain") payloadBread DB.init).status = 415 ↔
       (some "text/plain" : Option String) ≠ some "application/json") ∧
    ((update_products 1 (some "text/plain") payloadBread DB.init).status = 404 ↔
       ((some "text/plain" : Option String) = some "application/json" ∧
        DB.init.find 1 = none)) :=
  C9_update_content_type_before_existence 1 (some "text/plain") payloadBread DB.init

/-- C10: a GET /products request whose name parameter equals the empty string
behaves exactly like one without a name parameter (in particular it returns
every stored row when no other filter is supplied, never only empty-named
rows), while an empty available parameter is rejected with 400. -/
theorem C10_empty_name_is_no_filter (cat avail : Option String) (db : DB) :
    list_products (some "") cat avail db = list_products none cat avail db ∧
    (list_products (some "") none none db).body = some (db.rows.map serialize) ∧
    (list_products none none (some "") db).status = 400 := by
  have hpa : parseAvailable "" = none := by decide
  refine ⟨?_, ?_, ?_⟩
  · simp [list_products, isTruthy]
  · simp [list_products, isTruthy, finishAvailable]
  · simp [list_products, isTruthy, finishAvailable, hpa]

/-- C2 counterexample: the value " true " (with surrounding spaces) is not
case-insensitively equal to any of true/1/yes/false/0/no, so the claim as
stated requires a 400 response; the handler strips whitespace first
(routes.py line 127) and answers 200. -/
theorem C2_counterexample :
    (∀ t ∈ ["true", "1", "yes", "false", "0", "no"],
       " true ".data.map pyLowerChar ≠ t.data) ∧
    (list_products none none (some " true ") DB.init).status = 200 := by
  decide

/-- C2 (amended): the available parameter is first stripped of surrounding
whitespace and lowercased; if the result is true/1/yes the response is 200
listing exactly the stored products whose available field is true, if it is
false/0/no exactly those whose available field is false, and otherwise the
request fails with 400 and returns no products. -/
theorem C2_available_filter (a : String) (db : DB) :
    (parseAvailable a = some true →
       list_products none none (some a) db =
         ⟨200, some ((db.rows.filter fun p => p.available == true).map serialize)⟩) ∧
    (parseAvailable a = some false →
       list_products none none (some a) db =
         ⟨200, some ((db.rows.filter fun p => p.available == false).map serialize)⟩) ∧
    (parseAvailable a = none →
       (list_products none none (some a) db).status = 400 ∧
       (list_products none none (some a) db).body = none) := by
  refine ⟨fun h => ?_, fun h => ?_, fun h => ?_⟩ <;>
    simp [list_products, isTruthy, finishAvailable, h]

theorem C2_witness :
    parseAvailable "TRUE" = some true ∧
    list_products none none (some "TRUE") dbSample =
      ⟨200, some ((dbSample.rows.filter fun p => p.available == true).map serialize)⟩ :=
  ⟨by decide, (C2_available_filter "TRUE" dbSample).1 (by decide)⟩

/-- C3 counterexample: the empty string is not the name of any category
member, so the claim as stated requires a 400 response; the handler's
truthiness test (`if category_name:` at routes.py line 118) skips the empty
string and answers 200. -/
theorem C3_counterexample :
    Category.fromName "" = none ∧
    (list_products none (some "") none DB.init).status = 200 := by
  decide

/-- C3 (amended): a GET /products request carrying a category parameter fails
with 400 if and only if the parameter is non-empty and not the name of a
member of the closed enumeration; a valid member name returns exactly the
stored products with that category; the empty string is treated as if no
category filter were supplied. -/
theorem C3_category_filter (s : String) (db : DB) :
    ((list_products none (some s) none db).status = 400 ↔
       (s ≠ "" ∧ Category.fromName s = none)) ∧
    (∀ c, Category.fromName s = some c →
       list_products none (some s) none db =
         ⟨200, some ((db.rows.filter fun p => p.category == c).map serialize)⟩) ∧
    (s = "" → list_products none (some s) none db =
       ⟨200, some (db.rows.map serialize)⟩) := by
  by_cases hs : s = ""
  · subst hs
    refine ⟨by simp [list_products, isTruthy, finishAvailable], fun c hc => ?_, fun _ => ?_⟩
    · simp [Category.fromName] at hc
    · simp [list_products, isTruthy, finishAvailable]
  · cases hc : Category.fromName s with
    | none =>
      refine ⟨?_, fun c hcc => ?_, fun hss => absurd hss hs⟩
      · simp [list_products, isTruthy, finishAvailable, hs, hc]
      · cases hcc
    | some c0 =>
      refine ⟨?_, fun c hcc => ?_, fun hss => absurd hss hs⟩
      · simp [list_products, isTruthy, finishAvailable, hs, hc]
      · cases hcc
        simp [list_products, isTruthy, finishAvailable, hs, hc]

theorem C3_witness :
    Category.fromName "FOOD" = some Category.FOOD ∧
    list_products none (some "FOOD") none dbSample =
      ⟨200, some ((dbSample.rows.filter fun p => p.category == Category.FOOD).map serialize)⟩ :=
  ⟨by decide, (C3_category_filter "FOOD" dbSample).2.1 Category.FOOD (by decide)⟩

/-- C1: for every stored set of products, a GET /products request supplying
any combination of the name, category, and available parameters with valid
values (a non-empty name, a category that decodes to an enumeration member,
an available value that decodes to a boolean) succeeds with 200 and returns
exactly the stored products satisfying the conjunction of the supplied
equality predicates; supplying no parameters returns every stored product. -/
theorem C1_list_filters_compose (name cat avail : Option String) (db : DB)
    (hn : name ≠ some "")
    (hc : cat.all (fun s => (Category.fromName s).isSome) = true)
    (ha : avail.all (fun s => (parseAvailable s).isSome) = true) :
    (list_products name cat avail db).status = 200 ∧
    (list_products name cat avail db).body =
      some ((db.rows.filter (matchesAllFilters name cat avail)).map serialize) ∧
    list_products none none none db = ⟨200, some (db.rows.map serialize)⟩ := by
  have hlast : list_products none none none db = ⟨200, some (db.rows.map serialize)⟩ := by
    simp [list_products, isTruthy, finishAvailable]
  have hq1 : (if isTruthy name = true then db.rows.filter (fun p => p.name == name.getD "") else db.rows)
      = db.rows.filter (fun p => (match name with | some n => p.name == n | none => true)) := by
    cases name with
    | none => simp [isTruthy]
    | some n =>
      have hn' : n ≠ "" := fun h => hn (by rw [h])
      simp [isTruthy, hn']
  have hres : list_products name cat avail db =
      ⟨200, some ((db.rows.filter (matchesAllFilters name cat avail)).map serialize)⟩ := by
    rw [list_products]
    rw [hq1]
    cases cat with
    | none =>
      rw [show isTruthy none = false from rfl]
      simp only [Bool.false_eq_true, if_false]
      cases avail with
      | none =>
        rw [finishAvailable]
        refine congrArg _ (congrArg _ (congrArg _ ?_))
        apply List.filter_congr
        intro x hx
        cases name <;> simp [matchesAllFilters]
      | some a =>
        simp only [Option.all_some] at ha
        obtain ⟨b, hb⟩ := Option.isSome_iff_exists.mp ha
        rw [finishAvailable, hb]
        refine congrArg _ (congrArg _ (congrArg _ ?_))
        rw [List.filter_filter]
        apply List.filter_congr
        intro x hx
        cases name with
        | none => by_cases h3 : x.available = b <;> simp [matchesAllFilters, h3, hb, Bool.and_comm, Bool.and_left_comm, Bool.and_assoc]
        | some n => by_cases h1 : x.name = n <;> by_cases h3 : x.available = b <;>
            simp [matchesAllFilters, h1, h3, hb, Bool.and_comm, Bool.and_left_comm, Bool.and_assoc]
    | some s =>
      simp only [Option.all_some] at hc
      obtain ⟨c, hcc⟩ := Option.isSome_iff_exists.mp hc
      have hs : s ≠ "" := by
        intro h; rw [h] at hcc; simp [Category.fromName] at hcc
      rw [show isTruthy (some s) = true by simp [isTruthy, hs]]
      simp only [if_true]
      simp only [Option.getD_some, hcc]
      cases avail with
      | none =>
        rw [finishAvailable]
        refine congrArg _ (congrArg _ (congrArg _ ?_))
        rw [List.filter_filter]
        apply List.filter_congr
        intro x hx
        cases name with
        | none => by_cases h2 : x.category = c <;> simp [matchesAllFilters, h2, hcc, Bool.and_comm, Bool.and_left_comm, Bool.and_assoc]
        | some n => by_cases h1 : x.name = n <;> by_cases h2 : x.category = c <;>
            simp [matchesAllFilters, h1, h2, hcc, Bool.and_comm, Bool.and_left_comm, Bool.and_assoc]
      | some a =>
        simp only [Option.all_some] at ha
        obtain ⟨b, hb⟩ := Option.isSome_iff_exists.mp ha
        rw [finishAvailable, hb]
        refine congrArg _ (congrArg _ (congrArg _ ?_))
        rw [List.filter_filter, List.filter_filter]
        apply List.filter_congr
        intro x hx
        cases name with
        | none => by_cases h2 : x.category = c <;> by_cases h3 : x.available = b <;>
            simp [matchesAllFilters, h2, h3, hcc, hb, Bool.and_comm, Bool.and_left_comm, Bool.and_assoc]
        | some n => by_cases h1 : x.name = n <;> by_cases h2 : x.category = c <;>
            by_cases h3 : x.available = b <;> simp [matchesAllFilters, h1, h2, h3, hcc, hb, Bool.and_comm, Bool.and_left_comm, Bool.and_assoc]
  exact ⟨by rw [hres], by rw [hres], hlast⟩


theorem C1_witness :
    ((some "Hammer" : Option String) ≠ some "") ∧
    ((some "TOOLS" : Option String).all (fun s => (Category.fromName s).isSome) = true) ∧
    ((some "yes" : Option String).all (fun s => (parseAvailable s).isSome) = true) ∧
    (list_products (some "Hammer") (some "TOOLS") (some "yes") dbSample).status = 200 ∧
    (list_products (some "Hammer") (some "TOOLS") (some "yes") dbSample).body =
      some ((dbSample.rows.filter
        (matchesAllFilters (some "Hammer") (some "TOOLS") (some "yes"))).map serialize) :=
  ⟨by decide, by decide, by decide,
   (C1_list_filters_compose (some "Hammer") (some "TOOLS") (some "yes") dbSample
      (by decide) (by decide) (by decide)).1,
   (C1_list_filters_compose (some "Hammer") (some "TOOLS") (some "yes") dbSample
      (by decide) (by decide) (by decide)).2.1⟩

/-- C4: DELETE /products/id answers 404 and changes no state when no product
with that id exists; when one exists the response is 204 with an empty body,
the product is removed, and a GET /products/id after any further sequence of
requests still answers 404 (the id is never reused). -/
theorem C4_delete_permanent (reqs : List Request) (pid : Nat) :
    ((runTrace reqs).find pid = none →
       delete_products pid (runTrace reqs) =
         ⟨404, some ("Product with id [" ++ toString pid ++ "] was not found."),
          runTrace reqs⟩) ∧
    (∀ p, (runTrace reqs).find pid = some p →
       (delete_products pid (runTrace reqs)).status = 204 ∧
       (delete_products pid (runTrace reqs)).body = none ∧
       ∀ laterReqs,
         (applyAll laterReqs (delete_products pid (runTrace reqs)).db).find pid = none ∧
         (get_products pid
            (applyAll laterReqs (delete_products pid (runTrace reqs)).db)).status = 404) := by
  constructor
  · intro habs
    simp [delete_products, habs]
  · intro p hfind
    have hinv := runTrace_inv reqs
    have hlt : pid < (runTrace reqs).nextId := by
      have := hinv p (DB.find_some_mem hfind)
      rwa [DB.find_some_id hfind] at this
    have hdel : delete_products pid (runTrace reqs) =
        ⟨204, none, ⟨(runTrace reqs).rows.filter (fun q => q.id != pid),
          (runTrace reqs).nextId⟩⟩ := by
      simp [delete_products, hfind]
    refine ⟨by rw [hdel], by rw [hdel], fun laterReqs => ?_⟩
    have habs2 : (delete_products pid (runTrace reqs)).db.find pid = none := by
      rw [hdel, DB.find_eq_none_iff]
      intro q hq
      have := (List.mem_filter.mp hq).2
      simpa using this
    have hlt2 : pid < (delete_products pid (runTrace reqs)).db.nextId := by
      rw [hdel]; exact hlt
    have hnone := applyAll_find_none laterReqs hlt2 habs2
    refine ⟨hnone, ?_⟩
    simp [get_products, hnone]

theorem C4_witness :
    ((runTrace traceHammer).find 1 = some hammerProduct) ∧
    (delete_products 1 (runTrace traceHammer)).status = 204 ∧
    (delete_products 1 (runTrace traceHammer)).body = none ∧
    (get_products 1
       (applyAll [Request.create jsonHeader payloadBread]
         (delete_products 1 (runTrace traceHammer)).db)).status = 404 :=
  ⟨by decide,
   ((C4_delete_permanent traceHammer 1).2 hammerProduct (by decide)).1,
   ((C4_delete_permanent traceHammer 1).2 hammerProduct (by decide)).2.1,
   (((C4_delete_permanent traceHammer 1).2 hammerProduct (by decide)).2.2
      [Request.create jsonHeader payloadBread]).2⟩

/-- C5: for every reachable store and valid creation payload, POST /products
answers 201 with a Location header naming the new product's canonical read
URL, the returned representation carries a new id that was unused at every
earlier point of the trace, and a subsequent GET /products/id for that id
answers 200 with a representation equal to the one returned by the create. -/
theorem C5_create_then_read (reqs : List Request) (body : Payload)
    (f : String × String × String × Bool × Category)
    (hok : deserializeFields body = some f) :
    (create_products (some "application/json") body (runTrace reqs)).status = 201 ∧
    (create_products (some "application/json") body (runTrace reqs)).location =
      some (location_url (runTrace reqs).nextId) ∧
    ((create_products (some "application/json") body (runTrace reqs)).body.map
       ProductJson.id) = some (runTrace reqs).nextId ∧
    (∀ k, (runTrace (reqs.take k)).find (runTrace reqs).nextId = none) ∧
    (get_products (runTrace reqs).nextId
       (create_products (some "application/json") body (runTrace reqs)).db).status = 200 ∧
    (get_products (runTrace reqs).nextId
       (create_products (some "application/json") body (runTrace reqs)).db).body =
      (create_products (some "application/json") body (runTrace reqs)).body := by
  have hinv := runTrace_inv reqs
  have hcreate : create_products (some "application/json") body (runTrace reqs) =
      ⟨201, some (serialize ⟨(runTrace reqs).nextId, f.1, f.2.1, f.2.2.1, f.2.2.2.1, f.2.2.2.2⟩),
       some (location_url (runTrace reqs).nextId),
       ⟨(runTrace reqs).rows ++ [⟨(runTrace reqs).nextId, f.1, f.2.1, f.2.2.1, f.2.2.2.1,
          f.2.2.2.2⟩], (runTrace reqs).nextId + 1⟩⟩ := by
    simp [create_products, contentTypeOk, hok]
  have hold : (runTrace reqs).rows.find?
      (fun q => q.id == (runTrace reqs).nextId) = none := by
    have := find_nextId_none hinv (Nat.le_refl (runTrace reqs).nextId)
    simpa [DB.find] using this
  have hfindnew : (create_products (some "application/json") body (runTrace reqs)).db.find
      (runTrace reqs).nextId =
      some ⟨(runTrace reqs).nextId, f.1, f.2.1, f.2.2.1, f.2.2.2.1, f.2.2.2.2⟩ := by
    rw [hcreate]
    show List.find? _ (_ ++ _) = _
    rw [List.find?_append, hold]
    simp
  refine ⟨by rw [hcreate], by rw [hcreate], by rw [hcreate]; rfl, fun k => ?_, ?_, ?_⟩
  · exact find_nextId_none (runTrace_inv (reqs.take k)) (runTrace_take_nextId_le reqs k)
  · simp [get_products, hfindnew]
  · rw [hcreate]
    simp only [get_products]
    rw [hcreate] at hfindnew
    rw [hfindnew]

theorem C5_witness :
    deserializeFields payloadBread = some ("Bread", "Whole grain", "3.50", false,
      Category.FOOD) ∧
    (create_products (some "application/json") payloadBread (runTrace traceHammer)).status
      = 201 ∧
    (create_products (some "application/json") payloadBread
       (runTrace traceHammer)).location = some (location_url (runTrace traceHammer).nextId) ∧
    (runTrace (traceHammer.take 0)).find (runTrace traceHammer).nextId = none ∧
    (get_products (runTrace traceHammer).nextId
       (create_products (some "application/json") payloadBread
         (runTrace traceHammer)).db).body =
      (create_products (some "application/json") payloadBread (runTrace traceHammer)).body :=
  ⟨by decide,
   (C5_create_then_read traceHammer payloadBread ("Bread", "Whole grain", "3.50", false, Category.FOOD) (by decide)).1,
   (C5_create_then_read traceHammer payloadBread ("Bread", "Whole grain", "3.50", false, Category.FOOD) (by decide)).2.1,
   (C5_create_then_read traceHammer payloadBread ("Bread", "Whole grain", "3.50", false, Category.FOOD) (by decide)).2.2.2.1 0,
   (C5_create_then_read traceHammer payloadBread ("Bread", "Whole grain", "3.50", false, Category.FOOD) (by decide)).2.2.2.2.2⟩

theorem find?_overwrite (rows : List Product) (pid : Nat) (p2 : Product)
    (hid : p2.id = pid) (hex : rows.find? (fun q => q.id == pid) ≠ none) :
    (rows.map fun q => if q.id == pid then p2 else q).find? (fun q => q.id == pid)
      = some p2 := by
  induction rows with
  | nil => simp at hex
  | cons q t ih =>
    rw [List.map_cons, List.find?_cons]
    by_cases hq : (q.id == pid) = true
    · rw [if_pos hq]
      have hp2 : (p2.id == pid) = true := by simp [hid]
      simp only [hp2]
    · have hq' : (q.id == pid) = false := by simpa using hq
      rw [if_neg hq]
      simp only [hq']
      simp only [List.find?_cons, hq'] at hex
      exact ih hex

/-- C8: a successful PUT /products/id on an existing product answers 200 with
the updated representation, overwrites the product's mutable fields (name,
description, price, available, category) with the supplied values while
preserving its id, persists the result under the same id, and leaves every
other product's record (and the id sequence) unchanged. -/
theorem C8_update_overwrites (db : DB) (pid : Nat) (p : Product) (body : Payload)
    (f : String × String × String × Bool × Category)
    (hfind : db.find pid = some p) (hok : deserializeFields body = some f) :
    ∃ p2 : Product,
      (update_products pid (some "application/json") body db).status = 200 ∧
      (update_products pid (some "application/json") body db).body = some (serialize p2) ∧
      p2.id = p.id ∧
      p2.name = f.1 ∧ p2.description = f.2.1 ∧ p2.price = f.2.2.1 ∧
      p2.available = f.2.2.2.1 ∧ p2.category = f.2.2.2.2 ∧
      (update_products pid (some "application/json") body db).db.find pid = some p2 ∧
      (update_products pid (some "application/json") body db).db.nextId = db.nextId ∧
      (∀ q ∈ db.rows, q.id ≠ pid →
         q ∈ (update_products pid (some "application/json") body db).db.rows) ∧
      (∀ q ∈ (update_products pid (some "application/json") body db).db.rows,
         q.id ≠ pid → q ∈ db.rows) := by
  have hpid : p.id = pid := DB.find_some_id hfind
  refine ⟨⟨p.id, f.1, f.2.1, f.2.2.1, f.2.2.2.1, f.2.2.2.2⟩, ?_⟩
  have hdes : deserializeInto p body =
      some ⟨p.id, f.1, f.2.1, f.2.2.1, f.2.2.2.1, f.2.2.2.2⟩ := by
    simp [deserializeInto, hok]
  have hup : update_products pid (some "application/json") body db =
      ⟨200, some (serialize ⟨p.id, f.1, f.2.1, f.2.2.1, f.2.2.2.1, f.2.2.2.2⟩),
       ⟨db.rows.map fun q =>
          if q.id == pid then ⟨p.id, f.1, f.2.1, f.2.2.1, f.2.2.2.1, f.2.2.2.2⟩ else q,
        db.nextId⟩⟩ := by
    simp [update_products, contentTypeOk, hfind, hdes]
  have hex : db.rows.find? (fun q => q.id == pid) ≠ none := by
    intro hnone
    rw [show db.rows.find? (fun q => q.id == pid) = db.find pid from rfl, hfind] at hnone
    cases hnone
  refine ⟨by rw [hup], by rw [hup], rfl, rfl, rfl, rfl, rfl, rfl, ?_, by rw [hup], ?_, ?_⟩
  · rw [hup]
    show List.find? _ (List.map _ _) = _
    exact find?_overwrite db.rows pid _ hpid hex
  · intro q hq hqid
    rw [hup]
    refine List.mem_map.mpr ⟨q, hq, ?_⟩
    simp [hqid]
  · intro q hq hqid
    rw [hup] at hq
    obtain ⟨q0, hq0, hq0eq⟩ := List.mem_map.mp hq
    by_cases h0 : (q0.id == pid) = true
    · rw [if_pos h0] at hq0eq
      subst hq0eq
      exact absurd hpid hqid
    · rw [if_neg h0] at hq0eq
      subst hq0eq
      exact hq0

theorem C8_witness :
    dbSample.find 1 = some hammerProduct ∧
    deserializeFields payloadBread =
      some ("Bread", "Whole grain", "3.50", false, Category.FOOD) ∧
    ∃ p2 : Product,
      (update_products 1 (some "application/json") payloadBread dbSample).status = 200 ∧
      (update_products 1 (some "application/json") payloadBread dbSample).body
        = some (serialize p2) ∧
      p2.id = hammerProduct.id ∧
      p2.name = "Bread" ∧ p2.description = "Whole grain" ∧ p2.price = "3.50" ∧
      p2.available = false ∧ p2.category = Category.FOOD ∧
      (update_products 1 (some "application/json") payloadBread dbSample).db.find 1
        = some p2 ∧
      (update_products 1 (some "application/json") payloadBread dbSample).db.nextId
        = dbSample.nextId ∧
      (∀ q ∈ dbSample.rows, q.id ≠ 1 →
         q ∈ (update_products 1 (some "application/json") payloadBread dbSample).db.rows) ∧
      (∀ q ∈ (update_products 1 (some "application/json") payloadBread dbSample).db.rows,
         q.id ≠ 1 → q ∈ dbSample.rows) :=
  ⟨by decide, by decide,
   C8_update_overwrites dbSample 1 hammerProduct payloadBread
     ("Bread", "Whole grain", "3.50", false, Category.FOOD) (by decide) (by decide)⟩

end ProductService
